import Mathlib

/-!
Shallow embedding of the core of `TestBenchGUI/testbench.py` (PoliTOcean
ThrusterTestBench): the CRC engine, the packet framer (`serial_send`), the
curve sampler (`compute_pwms`), the transmission scheduler (`serial_start`,
`send_pwms`, `serial_send_idle`, `change_frequency`) and the JSON snapshot
round trip (`json_save_sequence` / `json_load_sequence`).

Modelling conventions:
* Python floats are modelled as exact rationals `ℚ`; Python `int(...)` on a
  nonnegative value is `⌊·⌋` (truncation toward zero in general, `pyInt`),
  Python `round(...)` is round-half-to-even (`pyRound`).
* The serial connection is modelled by a `Bool` status flag plus a log of the
  byte chunks written (`writes`); opening a port takes a `portOpens : Bool`
  parameter standing for the environment.
* A Python exception escaping a function is modelled by an `Option Err`
  result (`some e` = the call raised); state mutations performed before the
  raise are kept, as in Python.
* `scipy.interpolate.interp1d` raises `ValueError` when given fewer than two
  data points (its documented "x and y arrays must have at least 2 entries"
  check, for both the `linear` and `previous` kinds); with enough points it
  is piecewise linear resp. previous-neighbour, extrapolating beyond the
  data range.  `BarycentricInterpolator` is exact Lagrange interpolation.
-/

namespace TestBench

attribute [local semireducible] Rat.mul Rat.add Rat.sub Rat.inv

/-- Python `int(q)` for a rational: truncation toward zero. -/
def pyInt (q : ℚ) : ℤ := if 0 ≤ q then ⌊q⌋ else ⌈q⌉

/-- Python `round(q)` for a rational: round half to even. -/
def pyRound (q : ℚ) : ℤ :=
  if q - ⌊q⌋ < 1/2 then ⌊q⌋
  else if 1/2 < q - ⌊q⌋ then ⌊q⌋ + 1
  else if Even ⌊q⌋ then ⌊q⌋ else ⌊q⌋ + 1

/-! ### CRC engine (`crc8`, testbench.py lines 346-360) -/

/-- One inner-loop iteration of `crc8`: shift left, conditionally XOR the
polynomial `0x07`, and mask with `0xFF` (`crc &= 0xFF`). -/
def crc8_update (crc : ℕ) : ℕ :=
  if crc &&& 0x80 ≠ 0 then ((crc <<< 1) ^^^ 0x07) &&& 0xFF
  else (crc <<< 1) &&& 0xFF

/-- Processing of one input byte by `crc8`: XOR the byte into the register,
then run the inner loop eight times. -/
def crc8_byte (crc b : ℕ) : ℕ := crc8_update^[8] (crc ^^^ b)

/-- `crc8(data)` from the source: register starts at `0x00`, each byte is
processed in order. -/
def crc8 (data : List ℕ) : ℕ := data.foldl crc8_byte 0x00

/-- Reference bit-wise CRC-8 step, written from the spec wording: look at the
top bit, shift left (multiply by two), XOR with the polynomial exactly when
the top bit was set, and keep eight bits by reducing mod `2^8`. -/
def crc8_ref_step (r : ℕ) : ℕ :=
  (if r.testBit 7 then (r * 2) ^^^ 0x07 else r * 2) % 2 ^ 8

/-- Reference CRC-8 (polynomial `0x07`, initial register `0x00`, MSB first),
written from the spec wording. -/
def crc8_ref (data : List ℕ) : ℕ :=
  data.foldl (fun r b => crc8_ref_step^[8] (r ^^^ b)) 0

theorem crc8_update_eq_ref_step (r : ℕ) : crc8_update r = crc8_ref_step r := by
  have htop : (r &&& 0x80 ≠ 0) ↔ r.testBit 7 = true := by
    have h : r &&& 0x80 = (r.testBit 7).toNat * 2 ^ 7 := by
      rw [show (0x80 : ℕ) = 2 ^ 7 by norm_num]
      exact Nat.and_two_pow r 7
    rw [h]
    cases r.testBit 7
    case true => simp
    case false => simp
  have hmask : ∀ x : ℕ, x &&& 0xFF = x % 2 ^ 8 := by
    intro x
    have := Nat.and_pow_two_sub_one_eq_mod x 8
    norm_num at this ⊢
    exact this
  have hshift : ∀ x : ℕ, x <<< 1 = x * 2 := by
    intro x; rw [Nat.shiftLeft_eq]
  unfold crc8_update crc8_ref_step
  by_cases h : r.testBit 7 = true
  · rw [if_pos (htop.mpr h), if_pos h, hmask, hshift]
  · have h' : ¬(r &&& 0x80 ≠ 0) := fun hc => h (htop.mp hc)
    rw [if_neg h', if_neg h, hmask, hshift]

theorem crc8_update_lt (r : ℕ) : crc8_update r < 256 := by
  unfold crc8_update
  split <;> exact Nat.lt_succ_of_le (Nat.and_le_right)

theorem crc8_byte_lt (c b : ℕ) : crc8_byte c b < 256 := by
  unfold crc8_byte
  rw [show (8 : ℕ) = 7 + 1 from rfl, Function.iterate_succ_apply']
  exact crc8_update_lt _

theorem crc8_foldl_lt (l : List ℕ) (c : ℕ) (hc : c < 256) :
    List.foldl crc8_byte c l < 256 := by
  induction l generalizing c with
  | nil => exact hc
  | cons b t ih => exact ih _ (crc8_byte_lt _ _)

/-- C2: `crc8` is a pure function from byte sequences to a single octet: its
result is always below 256, and it coincides with the reference bit-wise
CRC-8 (polynomial `0x07`, initial register `0x00`, MSB-first, eight
shift-and-conditionally-XOR iterations per input byte, masked to 8 bits). -/
theorem crc8_matches_reference (data : List ℕ) :
    crc8 data = crc8_ref data ∧ crc8 data < 256 := by
  constructor
  · unfold crc8 crc8_ref
    congr 1
    funext r b
    unfold crc8_byte
    rw [funext crc8_update_eq_ref_step]
  · exact crc8_foldl_lt data 0 (by norm_num)

/-! ### Data model -/

/-- Interpolation mode (`selected_interpolation`, one of the values of
`interpolation_methods`). -/
inductive Interp
  | linear
  | constant
  | polynomial
deriving DecidableEq, Repr

/-- Exception kinds escaping the modelled calls: `ValueError` (wrong length,
unpacking an empty sequence, too few points for `interp1d`) and
`ConnectionError`. -/
inductive Err
  | valueError
  | connectionError
deriving DecidableEq, Repr

/-- The mutable state of `ThrusterGUI` relevant to the core, plus a log of
the chunks written to the serial connection. -/
structure TBState where
  selected_interpolation : Interp
  output_frequency : ℕ
  serial_status : Bool
  timerActive : Bool
  com_step : ℕ
  max_time : ℚ
  points : Fin 8 → List (ℚ × ℤ)
  cached_pwms : Fin 8 → List ℚ × List ℚ
  writes : List (List ℕ)
deriving DecidableEq

/-! ### Packet framer (`serial_send`, testbench.py lines 362-388) -/

/-- The clamping applied by `serial_send`: `max(1100, min(1900, pwm))`. -/
def clampPWM (p : ℤ) : ℤ := max 1100 (min 1900 p)

/-- Little-endian `uint16` packing of one value (`struct.pack` with `<H`). -/
def pack16LE (v : ℕ) : List ℕ := [v % 256, v / 256 % 256]

/-- The 21-byte packet `serial_send` builds for an 8-element value list:
3-byte header `AA 00 00`, 16 payload bytes, the CRC of header plus payload,
and the trailer `EE`. -/
def fullFrame (pwm : List ℤ) : List ℕ :=
  let packet := (pwm.map clampPWM).flatMap (fun v => pack16LE v.toNat)
  let body := [0xAA, 0x00, 0x00] ++ packet
  body ++ [crc8 body, 0xEE]

/-- `serial_send`: raises `ValueError` unless given exactly 8 values; clamps
and packs them; with the link open writes the single framed packet, else
raises `ConnectionError`. -/
def serial_send (pwm : List ℤ) (s : TBState) : TBState × Option Err :=
  if pwm.length ≠ 8 then (s, some .valueError)
  else if s.serial_status then
    ({s with writes := s.writes ++ [fullFrame pwm]}, none)
  else (s, some .connectionError)

/-- Decoding of a byte sequence as little-endian `uint16` pairs. -/
def decodeLE16s : List ℕ → List ℕ
  | lo :: hi :: rest => (lo + 256 * hi) :: decodeLE16s rest
  | _ => []

theorem clampPWM_bounds (v : ℤ) : 1100 ≤ clampPWM v ∧ clampPWM v ≤ 1900 :=
  ⟨le_max_left _ _, max_le (by norm_num) (min_le_left _ _)⟩

theorem clampPWM_decode (v : ℤ) :
    (clampPWM v).toNat % 256 + 256 * ((clampPWM v).toNat / 256 % 256) =
      (clampPWM v).toNat := by
  have h1 : clampPWM v ≤ 1900 := (clampPWM_bounds v).2
  omega

theorem decode_pack (l : List ℤ) :
    decodeLE16s ((l.map clampPWM).flatMap (fun v => pack16LE v.toNat)) =
      l.map (fun v => (clampPWM v).toNat) := by
  induction l with
  | nil => rfl
  | cons a t ih =>
    rw [List.map_cons, List.flatMap_cons]
    show decodeLE16s ((clampPWM a).toNat % 256 :: (clampPWM a).toNat / 256 % 256 ::
      (t.map clampPWM).flatMap (fun v => pack16LE v.toNat)) = _
    simp only [decodeLE16s]
    rw [clampPWM_decode a, ih, List.map_cons]

theorem pack_length (l : List ℤ) :
    ((l.map clampPWM).flatMap (fun v => pack16LE v.toNat)).length = 2 * l.length := by
  induction l with
  | nil => rfl
  | cons a t ih =>
    rw [List.map_cons, List.flatMap_cons, List.length_append, ih, List.length_cons]
    show 2 + 2 * t.length = 2 * (t.length + 1)
    omega

theorem fullFrame_eq (pwm : List ℤ) :
    fullFrame pwm =
      0xAA :: 0x00 :: 0x00 ::
        ((pwm.map clampPWM).flatMap (fun v => pack16LE v.toNat) ++
          [crc8 (0xAA :: 0x00 :: 0x00 ::
            (pwm.map clampPWM).flatMap (fun v => pack16LE v.toNat)), 0xEE]) := by
  simp [fullFrame]

theorem fullFrame_spec (pwm : List ℤ) (hlen : pwm.length = 8) :
    (fullFrame pwm).length = 21 ∧
    (fullFrame pwm).take 3 = [0xAA, 0x00, 0x00] ∧
    decodeLE16s (((fullFrame pwm).drop 3).take 16) =
      pwm.map (fun v => (clampPWM v).toNat) ∧
    (fullFrame pwm).get? 19 = some (crc8 ((fullFrame pwm).take 19)) ∧
    (fullFrame pwm).get? 20 = some 0xEE := by
  have hplen : ((pwm.map clampPWM).flatMap (fun v => pack16LE v.toNat)).length = 16 := by
    rw [pack_length, hlen]
  have htake : ∀ c : List ℕ,
      ((pwm.map clampPWM).flatMap (fun v => pack16LE v.toNat) ++ c).take 16 =
        (pwm.map clampPWM).flatMap (fun v => pack16LE v.toNat) :=
    fun c => List.take_left' hplen
  refine ⟨?_, ?_, ?_, ?_, ?_⟩
  · rw [fullFrame_eq]
    simp [hplen]
  · rw [fullFrame_eq]
    rfl
  · rw [fullFrame_eq]
    show decodeLE16s (((pwm.map clampPWM).flatMap (fun v => pack16LE v.toNat) ++ _).take 16) = _
    rw [htake]
    exact decode_pack pwm
  · rw [fullFrame_eq]
    show ((pwm.map clampPWM).flatMap (fun v => pack16LE v.toNat) ++ _).get? 16 = _
    rw [List.get?_append_right (le_of_eq hplen), hplen]
    show some _ = some (crc8 ((0xAA :: 0x00 :: 0x00 :: _).take 19))
    show some _ = some (crc8 (0xAA :: 0x00 :: 0x00 ::
      ((pwm.map clampPWM).flatMap (fun v => pack16LE v.toNat) ++ _).take 16))
    rw [htake]
  · rw [fullFrame_eq]
    show ((pwm.map clampPWM).flatMap (fun v => pack16LE v.toNat) ++ _).get? 17 = _
    rw [List.get?_append_right (le_trans (le_of_eq hplen) (by norm_num)), hplen]
    rfl

theorem serial_send_ok (pwm : List ℤ) (s : TBState) (hlen : pwm.length = 8)
    (hopen : s.serial_status = true) :
    serial_send pwm s = ({s with writes := s.writes ++ [fullFrame pwm]}, none) := by
  simp [serial_send, hlen, hopen]

/-- C1: for every list of exactly 8 integer PWM values, with the link open,
`serial_send` emits exactly one 21-byte frame: bytes 0-2 are `AA 00 00`,
bytes 3-18 are the 8 values, each first clamped to [1100, 1900], packed as
little-endian unsigned 16-bit integers in channel order, byte 19 equals
`crc8` of bytes 0-18, and byte 20 is `EE`. -/
theorem serial_send_frame_layout (pwm : List ℤ) (s : TBState)
    (hlen : pwm.length = 8) (hopen : s.serial_status = true) :
    serial_send pwm s = ({s with writes := s.writes ++ [fullFrame pwm]}, none) ∧
    (fullFrame pwm).length = 21 ∧
    (fullFrame pwm).take 3 = [0xAA, 0x00, 0x00] ∧
    decodeLE16s (((fullFrame pwm).drop 3).take 16) =
      pwm.map (fun v => (clampPWM v).toNat) ∧
    (∀ v ∈ pwm, 1100 ≤ clampPWM v ∧ clampPWM v ≤ 1900) ∧
    (fullFrame pwm).get? 19 = some (crc8 ((fullFrame pwm).take 19)) ∧
    (fullFrame pwm).get? 20 = some 0xEE := by
  obtain ⟨h1, h2, h3, h4, h5⟩ := fullFrame_spec pwm hlen
  exact ⟨serial_send_ok pwm s hlen hopen, h1, h2, h3,
    fun v _ => clampPWM_bounds v, h4, h5⟩

/-- A concrete state with the serial link open and an empty write log. -/
def openState : TBState :=
  ⟨.linear, 20, true, false, 0, 0, fun _ => [], fun _ => ([], []), []⟩

theorem serial_send_frame_layout_check :
    (([1500, 1500, 1500, 1500, 1500, 1500, 1500, 1500] : List ℤ).length = 8 ∧
      openState.serial_status = true) ∧
    (serial_send [1500, 1500, 1500, 1500, 1500, 1500, 1500, 1500] openState =
      ({openState with writes := openState.writes ++
        [fullFrame [1500, 1500, 1500, 1500, 1500, 1500, 1500, 1500]]}, none) ∧
    (fullFrame [1500, 1500, 1500, 1500, 1500, 1500, 1500, 1500]).length = 21 ∧
    (fullFrame [1500, 1500, 1500, 1500, 1500, 1500, 1500, 1500]).take 3 =
      [0xAA, 0x00, 0x00] ∧
    decodeLE16s (((fullFrame [1500, 1500, 1500, 1500, 1500, 1500, 1500, 1500]).drop 3).take 16) =
      ([1500, 1500, 1500, 1500, 1500, 1500, 1500, 1500] : List ℤ).map
        (fun v => (clampPWM v).toNat) ∧
    (∀ v ∈ ([1500, 1500, 1500, 1500, 1500, 1500, 1500, 1500] : List ℤ),
      1100 ≤ clampPWM v ∧ clampPWM v ≤ 1900) ∧
    (fullFrame [1500, 1500, 1500, 1500, 1500, 1500, 1500, 1500]).get? 19 =
      some (crc8 ((fullFrame [1500, 1500, 1500, 1500, 1500, 1500, 1500, 1500]).take 19)) ∧
    (fullFrame [1500, 1500, 1500, 1500, 1500, 1500, 1500, 1500]).get? 20 = some 0xEE) :=
  ⟨⟨rfl, rfl⟩, serial_send_frame_layout [1500, 1500, 1500, 1500, 1500, 1500, 1500, 1500]
    openState rfl rfl⟩

/-! ### Curve interpolation (`interp1d` / `BarycentricInterpolator` calls in
`compute_pwms` and `interpolate_thruster_curve`) -/

/-- Evaluation of the linear segment through `(x1, y1)` and `(x2, y2)`. -/
def linSegEval (x1 y1 x2 y2 t : ℚ) : ℚ := y1 + (y2 - y1) * (t - x1) / (x2 - x1)

/-- Piecewise-linear interpolation through the given time-sorted points, the
edge segments extended beyond the data range (`interp1d` with
`kind=linear`, `fill_value=extrapolate`). -/
def interpLinEval : List (ℚ × ℚ) → ℚ → ℚ
  | (x1, y1) :: (x2, y2) :: rest, t =>
    if t ≤ x2 then linSegEval x1 y1 x2 y2 t
    else
      match rest with
      | [] => linSegEval x1 y1 x2 y2 t
      | r :: rs => interpLinEval ((x2, y2) :: r :: rs) t
  | [(_, y)], _ => y
  | [], _ => 0

/-- Previous-value interpolation: the value of the last point at or before
the queried time, holding the first value before the first point
(`interp1d` with `kind=previous`, `fill_value=extrapolate`). -/
def interpPrevEval (pts : List (ℚ × ℚ)) (t : ℚ) : ℚ :=
  match (pts.filter (fun p => decide (p.1 ≤ t))).getLast? with
  | some q => q.2
  | none => ((pts.head?).map Prod.snd).getD 0

/-- Exact Lagrange interpolation through the points
(`BarycentricInterpolator`). -/
def lagrangeEval (pts : List (ℚ × ℚ)) (t : ℚ) : ℚ :=
  (pts.map (fun p =>
    p.2 * ((pts.filter (fun q => decide (q.1 ≠ p.1))).map
      (fun q => (t - q.1) / (p.1 - q.1))).prod)).sum

/-- Curve construction for one channel, per interpolation mode, as performed
by `compute_pwms` and `interpolate_thruster_curve`: for the `linear` and
`previous` kinds `interp1d` raises `ValueError` when given fewer than two
data points. -/
def build_interp (mode : Interp) (pts : List (ℚ × ℚ)) : Except Err (ℚ → ℚ) :=
  match mode with
  | .linear =>
    if pts.length < 2 then .error .valueError else .ok (interpLinEval pts)
  | .constant =>
    if pts.length < 2 then .error .valueError else .ok (interpPrevEval pts)
  | .polynomial => .ok (lagrangeEval pts)

/-- The `zip(*points)` / `np.array` step: a channel's waypoints as rational
pairs. -/
def toQPts (pts : List (ℚ × ℤ)) : List (ℚ × ℚ) :=
  pts.map (fun p => (p.1, (p.2 : ℚ)))

/-- `np.linspace(0, stop, num)`: `num` evenly spaced values from 0 to `stop`
inclusive (`[0]` when `num = 1`). -/
def pyLinspace (stop : ℚ) (num : ℕ) : List ℚ :=
  if num = 1 then [0]
  else (List.range num).map (fun (k : ℕ) => stop * (k : ℚ) / ((num : ℚ) - 1))

/-- `np.clip(y, 1100, 1900)` on one sample. -/
def clipQ (y : ℚ) : ℚ := min (max y 1100) 1900

/-! ### Curve sampler and scheduler state transitions
(testbench.py lines 325-462) -/

/-- `compute_max_time`: the largest waypoint time over the non-empty
channels, starting from 0 (`self.max_time = 0`, raised channel by
channel). -/
def compute_max_time (s : TBState) : ℚ :=
  (List.finRange 8).foldl (fun m i =>
    match s.points i with
    | [] => m
    | p :: ps => let a := (ps.map Prod.fst).foldl max p.1
                 if m < a then a else m) 0

/-- The number of samples used by `compute_pwms` and
`interpolate_thruster_curve`: `int(self.max_time * self.output_frequency) + 1`. -/
def sampleCount (s : TBState) : ℕ :=
  (pyInt (s.max_time * (s.output_frequency : ℚ)) + 1).toNat

/-- The pair of arrays `compute_pwms` stores for one channel:
`t_interp = np.linspace(0, round(max_time), int(max_time*frequency) + 1)`
and `y_interp = np.clip(f(t_interp), 1100, 1900)`. -/
def channelCurve (s : TBState) (f : ℚ → ℚ) : List ℚ × List ℚ :=
  let ts := pyLinspace ((pyRound s.max_time : ℤ) : ℚ) (sampleCount s)
  (ts, (ts.map f).map clipQ)

/-- The loop body of `compute_pwms` for channel `i`: unpack the waypoints
(raises on an empty channel), build the interpolant (may raise), sample and
clip it, and store the pair of arrays in the cache. -/
def compute_channel (s : TBState) (i : Fin 8) : TBState × Option Err :=
  if s.points i = [] then (s, some .valueError)
  else
    match build_interp s.selected_interpolation (toQPts (s.points i)) with
    | .error e => (s, some e)
    | .ok f =>
      ({s with cached_pwms :=
        Function.update s.cached_pwms i (channelCurve s f)}, none)

/-- The channel loop of `compute_pwms`; an exception aborts the loop with the
mutations made so far kept. -/
def compute_pwms_loop : TBState → List (Fin 8) → TBState × Option Err
  | s, [] => (s, none)
  | s, i :: rest =>
    match compute_channel s i with
    | (s1, none) => compute_pwms_loop s1 rest
    | (s1, some e) => (s1, some e)

/-- `compute_pwms` (lines 430-446): refresh `max_time`, then rebuild every
channel's cached sample arrays in channel order. -/
def compute_pwms (s : TBState) : TBState × Option Err :=
  compute_pwms_loop {s with max_time := compute_max_time s} (List.finRange 8)

/-- `interpolate_thruster_curve` (lines 300-323) restricted to its state
effects: unpack the channel's waypoints (raises on an empty channel), build
the interpolant (may raise), refresh `max_time`; the plotting is dropped. -/
def interpolate_thruster_curve (s : TBState) (i : Fin 8) : TBState × Option Err :=
  if s.points i = [] then (s, some .valueError)
  else
    match build_interp s.selected_interpolation (toQPts (s.points i)) with
    | .error e => (s, some e)
    | .ok _ => ({s with max_time := compute_max_time s}, none)

/-- `setup_serial` (lines 325-338): closes any open connection and reopens;
`portOpens` tells whether the `serial.Serial` constructor succeeds. The
function never raises (`SerialException` is caught). -/
def setup_serial (portOpens : Bool) (s : TBState) : TBState :=
  {s with serial_status := portOpens}

/-- `serial_send_idle` (lines 390-396): open the link if closed, stop the
timer, send the all-1500 idle frame (a raise there aborts the rest), then
close the link. -/
def serial_send_idle (portOpens : Bool) (s : TBState) : TBState × Option Err :=
  match serial_send (List.replicate 8 1500)
      {(if s.serial_status then s else setup_serial portOpens s) with
        timerActive := false} with
  | (s3, none) => ({s3 with serial_status := false}, none)
  | (s3, some e) => (s3, some e)

/-- `serial_start` (lines 406-420): open the link (raise `ConnectionError`
if that fails), rebuild the cache (a raise propagates with the state
mutated so far), write the 7 start-of-stream bytes one write at a time,
reset the cursor and start the timer. -/
def serial_start (portOpens : Bool) (s : TBState) : TBState × Option Err :=
  let s1 := setup_serial portOpens s
  if s1.serial_status = false then (s1, some .connectionError)
  else
    match compute_pwms s1 with
    | (s2, some e) => (s2, some e)
    | (s2, none) =>
      let s3 := {s2 with writes :=
        s2.writes ++ [[0xFF], [0x00], [0x01], [0x00], [0x00], [0x52], [0xEE]]}
      ({s3 with com_step := 0, timerActive := true}, none)

/-- `change_frequency` (lines 340-344): store the new frequency; the timer
interval is rescheduled but neither the cache nor the cursor is touched. -/
def change_frequency (freq : ℕ) (s : TBState) : TBState :=
  {s with output_frequency := freq}

/-- `get_pwms` (lines 455-462): look up every channel's cached value at
`step`; an out-of-range index aborts the loop (the exception is swallowed)
and the partial list is returned. -/
def get_pwms_loop (s : TBState) (step : ℕ) : List (Fin 8) → List ℤ → List ℤ
  | [], acc => acc
  | i :: rest, acc =>
    match ((s.cached_pwms i).2).get? step with
    | some y => get_pwms_loop s step rest (acc ++ [pyInt y])
    | none => acc

/-- `get_pwms`: the per-step 8-channel lookup on the cache. -/
def get_pwms (s : TBState) (step : ℕ) : List ℤ :=
  get_pwms_loop s step (List.finRange 8) []

/-- `send_pwms` (lines 449-453), the timer tick: while
`com_step <= int(max_time * output_frequency) + 1` transmit the cached
vector and advance the cursor (a raise in `serial_send` leaves the cursor
unchanged); otherwise run the idle sequence. -/
def send_pwms (portOpens : Bool) (s : TBState) : TBState × Option Err :=
  if (s.com_step : ℤ) ≤ pyInt (s.max_time * (s.output_frequency : ℚ)) + 1 then
    match serial_send (get_pwms s s.com_step) s with
    | (s1, none) => ({s1 with com_step := s.com_step + 1}, none)
    | (s1, some e) => (s1, some e)
  else serial_send_idle portOpens s

/-- The state reached after `k` timer ticks. -/
def run_ticks (portOpens : Bool) (k : ℕ) (s : TBState) : TBState :=
  (fun t => (send_pwms portOpens t).1)^[k] s

/-! ### JSON snapshot (lines 464-509) -/

/-- The data saved by `json_save_sequence`: interpolation method, frequency
and the per-channel waypoint lists. -/
structure Snapshot where
  interpolation_method : Interp
  frequency : ℕ
  thruster_data : Fin 8 → List (ℚ × ℤ)
deriving DecidableEq

/-- `json_save_sequence` at the data level. -/
def json_save_sequence (s : TBState) : Snapshot :=
  ⟨s.selected_interpolation, s.output_frequency, s.points⟩

/-- The channel loop of `json_load_sequence`: set each channel's points
from the snapshot, then re-interpolate it; an exception aborts the loop
(it is caught by the surrounding `except`), leaving later channels at
their previous values. -/
def json_load_loop : TBState → Snapshot → List (Fin 8) → TBState
  | s, _, [] => s
  | s, d, i :: rest =>
    match interpolate_thruster_curve
        {s with points := Function.update s.points i (d.thruster_data i)} i with
    | (s2, none) => json_load_loop s2 d rest
    | (s2, some _) => s2

/-- `json_load_sequence` at the data level: set mode and frequency, then
load the channels in order. -/
def json_load_sequence (d : Snapshot) (s : TBState) : TBState :=
  json_load_loop
    {s with selected_interpolation := d.interpolation_method,
            output_frequency := d.frequency} d (List.finRange 8)

/-! ### Basic lemmas about the sampler building blocks -/

theorem pyLinspace_length (q : ℚ) (n : ℕ) : (pyLinspace q n).length = n := by
  unfold pyLinspace
  split
  · simp [*]
  · simp

theorem pyLinspace_get (q : ℚ) (n : ℕ) (h2 : 2 ≤ n) (k : ℕ) (hk : k < n) :
    (pyLinspace q n).get? k = some (q * k / ((n : ℚ) - 1)) := by
  unfold pyLinspace
  rw [if_neg (by omega), List.get?_eq_getElem?, List.getElem?_map,
    List.getElem?_range hk]
  rfl

theorem clipQ_bounds (y : ℚ) : 1100 ≤ clipQ y ∧ clipQ y ≤ 1900 :=
  ⟨le_min (le_max_right _ _) (by norm_num), min_le_right _ _⟩

theorem toQPts_length (pts : List (ℚ × ℤ)) : (toQPts pts).length = pts.length :=
  List.length_map _ _

theorem build_interp_ok (mode : Interp) (pts : List (ℚ × ℚ))
    (h : mode ≠ .polynomial → 2 ≤ pts.length) :
    ∃ f, build_interp mode pts = .ok f := by
  cases mode with
  | linear =>
    exact ⟨_, by rw [build_interp, if_neg (by have := h (by simp); omega)]⟩
  | constant =>
    exact ⟨_, by rw [build_interp, if_neg (by have := h (by simp); omega)]⟩
  | polynomial => exact ⟨_, rfl⟩

/-- The success condition of `compute_channel` for one channel: non-empty,
and at least two waypoints unless the mode is polynomial. -/
def channel_ok (s : TBState) (i : Fin 8) : Prop :=
  s.points i ≠ [] ∧
    (s.selected_interpolation ≠ .polynomial → 2 ≤ (s.points i).length)

instance (s : TBState) (i : Fin 8) : Decidable (channel_ok s i) := by
  unfold channel_ok
  infer_instance

theorem compute_channel_points (s : TBState) (i : Fin 8) :
    ((compute_channel s i).1).points = s.points ∧
    ((compute_channel s i).1).max_time = s.max_time ∧
    ((compute_channel s i).1).output_frequency = s.output_frequency ∧
    ((compute_channel s i).1).selected_interpolation = s.selected_interpolation := by
  unfold compute_channel
  split
  · exact ⟨rfl, rfl, rfl, rfl⟩
  · split
    · exact ⟨rfl, rfl, rfl, rfl⟩
    · exact ⟨rfl, rfl, rfl, rfl⟩

theorem compute_channel_ok_nonempty (s : TBState) (i : Fin 8) (s1 : TBState)
    (h : compute_channel s i = (s1, none)) : s.points i ≠ [] := by
  intro hc
  rw [compute_channel, if_pos hc] at h
  simp at h

theorem compute_channel_ok (s : TBState) (i : Fin 8) (h : channel_ok s i) :
    ∃ f, compute_channel s i =
      ({s with cached_pwms :=
        Function.update s.cached_pwms i (channelCurve s f)}, none) := by
  obtain ⟨f, hf⟩ := build_interp_ok s.selected_interpolation (toQPts (s.points i))
    (fun hm => by rw [toQPts_length]; exact h.2 hm)
  refine ⟨f, ?_⟩
  rw [compute_channel, if_neg h.1, hf]

/-- The channel loop of `compute_pwms` raises whenever some channel in the
remaining list is empty. -/
theorem compute_pwms_loop_fails (L : List (Fin 8)) :
    ∀ s : TBState, (∃ i ∈ L, s.points i = []) →
      ((compute_pwms_loop s L).2).isSome = true := by
  induction L with
  | nil =>
    rintro s ⟨i, hi, _⟩
    simp at hi
  | cons j rest ih =>
    rintro s ⟨i, hi, hempty⟩
    unfold compute_pwms_loop
    rcases hcc : compute_channel s j with ⟨s1, e⟩
    cases e with
    | none =>
      have hp : s1.points = s.points := by
        have := (compute_channel_points s j).1
        rw [hcc] at this
        exact this
      have hne : s.points j ≠ [] := compute_channel_ok_nonempty s j s1 hcc
      have hrest : i ∈ rest := by
        rcases List.mem_cons.mp hi with h | h
        · exact absurd (h ▸ hempty) hne
        · exact h
      simpa using ih s1 ⟨i, hrest, by rw [hp]; exact hempty⟩
    | some e => simp

/-- A concrete store with channel 0 non-empty and channel 1 empty. -/
def partStore : TBState :=
  ⟨.linear, 1, false, false, 0, 0,
   fun i => if i = 0 then [(0, 1500), (1, 1600)] else [],
   fun _ => ([], []), []⟩

/-- C6 counterexample: a store with a non-empty channel on which the cache
rebuild nevertheless raises, because another channel is empty: empty
channels are not skipped. -/
theorem rebuild_not_skipping_empty_channel :
    (partStore.points 0 ≠ [] ∧ (∃ i, partStore.points i ≠ [])) ∧
    ((compute_pwms partStore).2).isSome = true := by
  constructor
  · exact ⟨by decide, ⟨0, by decide⟩⟩
  · decide

/-- C6 (amended): `compute_pwms` treats an empty channel as fatal, not as a
channel to skip: whenever any channel has zero waypoints the rebuild raises
(the `zip(*points)` unpacking fails), no matter how many other channels are
non-empty. -/
theorem rebuild_fails_on_empty_channel (s : TBState)
    (h : ∃ i, s.points i = []) :
    ((compute_pwms s).2).isSome = true := by
  obtain ⟨i, hi⟩ := h
  unfold compute_pwms
  exact compute_pwms_loop_fails (List.finRange 8) _
    ⟨i, List.mem_finRange i, hi⟩

theorem rebuild_fails_on_empty_channel_check :
    (∃ i, partStore.points i = []) ∧
    ((compute_pwms partStore).2).isSome = true :=
  ⟨⟨1, by decide⟩, rebuild_fails_on_empty_channel partStore ⟨1, by decide⟩⟩

/-- C7 counterexample: a channel holding exactly one waypoint does not build
in Linear mode (`interp1d` needs at least two data points), refuting that
curve construction succeeds in all three modes. -/
theorem single_waypoint_linear_fails :
    build_interp Interp.linear [((0 : ℚ), (1500 : ℚ))] =
      .error Err.valueError := rfl

/-- C7 (amended): with exactly one waypoint, Polynomial mode succeeds and
yields the constant function at that waypoint's PWM value, while Linear and
Constant (step-hold) modes raise, since `interp1d` requires at least two
data points. -/
theorem single_waypoint_modes (t0 p0 : ℚ) :
    (∃ f, build_interp Interp.polynomial [(t0, p0)] = .ok f ∧
      ∀ t, f t = p0) ∧
    build_interp Interp.linear [(t0, p0)] = .error Err.valueError ∧
    build_interp Interp.constant [(t0, p0)] = .error Err.valueError := by
  refine ⟨⟨lagrangeEval [(t0, p0)], rfl, fun t => ?_⟩, rfl, rfl⟩
  simp [lagrangeEval, List.filter]

theorem compute_pwms_loop_ok (L : List (Fin 8)) :
    ∀ s : TBState, L.Nodup → (∀ i ∈ L, channel_ok s i) →
      ∃ s', compute_pwms_loop s L = (s', none) ∧
        s'.points = s.points ∧ s'.max_time = s.max_time ∧
        s'.output_frequency = s.output_frequency ∧
        s'.selected_interpolation = s.selected_interpolation ∧
        (∀ i ∈ L, ∃ f, s'.cached_pwms i = channelCurve s f) ∧
        (∀ i, i ∉ L → s'.cached_pwms i = s.cached_pwms i) := by
  induction L with
  | nil =>
    intro s _ _
    exact ⟨s, rfl, rfl, rfl, rfl, rfl, by simp, fun i _ => rfl⟩
  | cons j rest ih =>
    intro s hnd hok
    obtain ⟨f, hf⟩ := compute_channel_ok s j (hok j (List.mem_cons_self j rest))
    have hjrest : j ∉ rest := (List.nodup_cons.mp hnd).1
    obtain ⟨s2, hloop, hpts, hmax, hfreq, hmode, hmem, hout⟩ :=
      ih {s with cached_pwms := Function.update s.cached_pwms j (channelCurve s f)}
        (List.nodup_cons.mp hnd).2
        (fun i hi => hok i (List.mem_cons_of_mem j hi))
    refine ⟨s2, ?_, hpts, hmax, hfreq, hmode, ?_, ?_⟩
    · unfold compute_pwms_loop
      rw [hf]
      exact hloop
    · intro i hi
      rcases List.mem_cons.mp hi with hij | hirest
      · subst hij
        refine ⟨f, ?_⟩
        rw [hout i hjrest]
        exact Function.update_same i (channelCurve s f) s.cached_pwms
      · exact hmem i hirest
    · intro i hi
      rw [hout i (fun hc => hi (List.mem_cons_of_mem j hc))]
      have hij : i ≠ j := fun hc => hi (by rw [hc]; exact List.mem_cons_self j rest)
      exact Function.update_noteq hij (channelCurve s f) s.cached_pwms

theorem compute_pwms_ok (s : TBState) (hok : ∀ i, channel_ok s i) :
    ∃ s', compute_pwms s = (s', none) ∧
      s'.points = s.points ∧
      s'.max_time = compute_max_time s ∧
      s'.output_frequency = s.output_frequency ∧
      s'.selected_interpolation = s.selected_interpolation ∧
      (∀ i, ∃ f, s'.cached_pwms i =
        channelCurve {s with max_time := compute_max_time s} f) := by
  obtain ⟨s', hloop, hpts, hmax, hfreq, hmode, hmem, _⟩ :=
    compute_pwms_loop_ok (List.finRange 8)
      {s with max_time := compute_max_time s}
      (List.nodup_finRange 8) (fun i _ => hok i)
  exact ⟨s', hloop, hpts, hmax, hfreq, hmode,
    fun i => hmem i (List.mem_finRange i)⟩

/-- C8 (amended): for every waypoint store on which the cache rebuild can
succeed at all — every channel non-empty, and at least two waypoints per
channel unless the mode is Polynomial — `compute_pwms` succeeds and gives
every channel exactly `int(globalMaxTime * frequency) + 1` samples, taken
at evenly spaced times from 0 to `round(globalMaxTime)` inclusive, every
sampled PWM value being clipped into [1100, 1900].  (The claim's count
`floor(round(globalMaxTime) * frequency) + 1` is wrong for fractional max
times, and stores with an empty channel make the rebuild fail instead of
being skipped.) -/
theorem rebuild_sampling_spec (s : TBState)
    (hok : ∀ i, s.points i ≠ [] ∧
      (s.selected_interpolation ≠ .polynomial → 2 ≤ (s.points i).length)) :
    ∃ s', compute_pwms s = (s', none) ∧
      sampleCount s' =
        (pyInt (compute_max_time s * (s.output_frequency : ℚ)) + 1).toNat ∧
      ∀ i, ((s'.cached_pwms i).1).length = sampleCount s' ∧
        ((s'.cached_pwms i).2).length = sampleCount s' ∧
        (∀ y ∈ (s'.cached_pwms i).2, 1100 ≤ y ∧ y ≤ 1900) ∧
        (sampleCount s' = 1 → (s'.cached_pwms i).1 = [0]) ∧
        (2 ≤ sampleCount s' → ∀ k, k < sampleCount s' →
          ((s'.cached_pwms i).1).get? k =
            some (((pyRound (compute_max_time s) : ℤ) : ℚ) * (k : ℚ) /
              ((sampleCount s' : ℚ) - 1))) := by
  obtain ⟨s', hrun, hpts, hmax, hfreq, hmode, hmem⟩ := compute_pwms_ok s hok
  have hsc : sampleCount s' =
      (pyInt (compute_max_time s * (s.output_frequency : ℚ)) + 1).toNat := by
    unfold sampleCount
    rw [hmax, hfreq]
  have hsc0 : sampleCount s' =
      sampleCount {s with max_time := compute_max_time s} := hsc
  refine ⟨s', hrun, hsc, fun i => ?_⟩
  obtain ⟨f, hcache⟩ := hmem i
  rw [hcache]
  unfold channelCurve
  refine ⟨?_, ?_, ?_, ?_, ?_⟩
  · rw [pyLinspace_length, hsc0]
  · rw [List.length_map, List.length_map, pyLinspace_length, hsc0]
  · intro y hy
    obtain ⟨x, _, hx⟩ := List.mem_map.mp hy
    exact hx ▸ clipQ_bounds x
  · intro h1
    rw [hsc0] at h1
    show pyLinspace _ _ = [0]
    rw [h1, pyLinspace, if_pos rfl]
  · intro h2 k hk
    rw [hsc0] at h2 hk
    show (pyLinspace _ _).get? k = _
    rw [pyLinspace_get _ _ h2 k hk, hsc0]

/-- A store with a single waypoint at the fractional time 8/5 on every
channel, polynomial mode, 1 Hz. -/
def fracStore : TBState :=
  ⟨.polynomial, 1, false, false, 0, 0, fun _ => [(8/5, 1500)],
   fun _ => ([], []), []⟩

/-- C8 counterexample: on `fracStore` the rebuild succeeds, the cached curve
has 2 samples, but the claimed count
`floor(round(globalMaxTime) * frequency) + 1` is 3. -/
theorem rebuild_sample_count_mismatch :
    (compute_pwms fracStore).2 = none ∧
    (((compute_pwms fracStore).1.cached_pwms 0).2).length = 2 ∧
    (pyInt (((pyRound (compute_max_time fracStore) : ℤ) : ℚ) *
      (fracStore.output_frequency : ℚ)) + 1).toNat = 3 := by
  decide

/-- A store with two waypoints on every channel, linear mode, 1 Hz. -/
def fullStore : TBState :=
  ⟨.linear, 1, false, false, 0, 0, fun _ => [(0, 1100), (2, 1900)],
   fun _ => ([], []), []⟩

theorem rebuild_sampling_spec_check :
    (∀ i, fullStore.points i ≠ [] ∧
      (fullStore.selected_interpolation ≠ .polynomial →
        2 ≤ (fullStore.points i).length)) ∧
    (∃ s', compute_pwms fullStore = (s', none) ∧
      sampleCount s' =
        (pyInt (compute_max_time fullStore *
          (fullStore.output_frequency : ℚ)) + 1).toNat ∧
      ∀ i, ((s'.cached_pwms i).1).length = sampleCount s' ∧
        ((s'.cached_pwms i).2).length = sampleCount s' ∧
        (∀ y ∈ (s'.cached_pwms i).2, 1100 ≤ y ∧ y ≤ 1900) ∧
        (sampleCount s' = 1 → (s'.cached_pwms i).1 = [0]) ∧
        (2 ≤ sampleCount s' → ∀ k, k < sampleCount s' →
          ((s'.cached_pwms i).1).get? k =
            some (((pyRound (compute_max_time fullStore) : ℤ) : ℚ) * (k : ℚ) /
              ((sampleCount s' : ℚ) - 1)))) :=
  ⟨by decide, rebuild_sampling_spec fullStore (by decide)⟩

theorem finRange8_eq : List.finRange 8 = [0, 1, 2, 3, 4, 5, 6, 7] := by decide

/-- A Closed state in which every channel is empty. -/
def allEmptyStore : TBState :=
  ⟨.linear, 20, false, false, 0, 0, fun _ => [], fun _ => ([], []), []⟩

/-- C5 counterexample: from the Closed state with every channel empty and a
port that opens, `serial_start` fails, but the link state afterwards is
Open (`serial_status = 1`), not the Closed state it started from. -/
theorem start_all_empty_changes_link_state :
    ((serial_start true allEmptyStore).2).isSome = true ∧
    allEmptyStore.serial_status = false ∧
    (serial_start true allEmptyStore).1.serial_status = true := by
  decide

/-- C5 (amended): with all 8 channels empty and a port that opens,
`serial_start` raises during the cache rebuild — before writing the start
sequence or starting the timer — but it has already opened the serial
connection, so a Closed link is left Open rather than unchanged. -/
theorem start_all_empty_opens_link (s : TBState)
    (hempty : ∀ i, s.points i = []) (hclosed : s.serial_status = false) :
    ((serial_start true s).2).isSome = true ∧
    (serial_start true s).1.serial_status = true ∧
    (serial_start true s).1.writes = s.writes ∧
    (serial_start true s).1.timerActive = s.timerActive := by
  have hcc : compute_channel
      {{s with serial_status := true} with
        max_time := compute_max_time {s with serial_status := true}} 0 =
      ({{s with serial_status := true} with
         max_time := compute_max_time {s with serial_status := true}},
       some Err.valueError) := by
    unfold compute_channel
    rw [if_pos (hempty 0)]
  have hcp : compute_pwms {s with serial_status := true} =
      ({{s with serial_status := true} with
         max_time := compute_max_time {s with serial_status := true}},
       some Err.valueError) := by
    unfold compute_pwms
    rw [finRange8_eq]
    unfold compute_pwms_loop
    rw [hcc]
  have hstart : serial_start true s =
      ({{s with serial_status := true} with
         max_time := compute_max_time {s with serial_status := true}},
       some Err.valueError) := by
    unfold serial_start setup_serial
    rw [if_neg (by simp), hcp]
  rw [hstart]
  exact ⟨rfl, rfl, rfl, rfl⟩

theorem start_all_empty_opens_link_check :
    ((∀ i, allEmptyStore.points i = []) ∧
      allEmptyStore.serial_status = false) ∧
    (((serial_start true allEmptyStore).2).isSome = true ∧
     (serial_start true allEmptyStore).1.serial_status = true ∧
     (serial_start true allEmptyStore).1.writes = allEmptyStore.writes ∧
     (serial_start true allEmptyStore).1.timerActive =
       allEmptyStore.timerActive) :=
  ⟨⟨fun _ => rfl, rfl⟩,
   start_all_empty_opens_link allEmptyStore (fun _ => rfl) rfl⟩

/-! ### Snapshot round trip (C9) -/

theorem itc_fields (s : TBState) (i : Fin 8) :
    ((interpolate_thruster_curve s i).1).points = s.points ∧
    ((interpolate_thruster_curve s i).1).selected_interpolation =
      s.selected_interpolation ∧
    ((interpolate_thruster_curve s i).1).output_frequency =
      s.output_frequency := by
  unfold interpolate_thruster_curve
  split
  · exact ⟨rfl, rfl, rfl⟩
  · split
    · exact ⟨rfl, rfl, rfl⟩
    · exact ⟨rfl, rfl, rfl⟩

theorem json_load_loop_fields (L : List (Fin 8)) :
    ∀ (s : TBState) (d : Snapshot), (∀ i ∈ L, d.thruster_data i = s.points i) →
      (json_load_loop s d L).points = s.points ∧
      (json_load_loop s d L).selected_interpolation =
        s.selected_interpolation ∧
      (json_load_loop s d L).output_frequency = s.output_frequency := by
  induction L with
  | nil =>
    intro s d _
    exact ⟨rfl, rfl, rfl⟩
  | cons j rest ih =>
    intro s d h
    have hup : Function.update s.points j (d.thruster_data j) = s.points := by
      rw [h j (List.mem_cons_self j rest), Function.update_eq_self]
    have hf := itc_fields
      {s with points := Function.update s.points j (d.thruster_data j)} j
    unfold json_load_loop
    split
    · rename_i s2 heq
      rw [heq] at hf
      have hp2 : s2.points = s.points := by
        rw [hf.1]
        exact hup
      obtain ⟨a, b, c⟩ := ih s2 d
        (fun i hi => by rw [hp2]; exact h i (List.mem_cons_of_mem j hi))
      exact ⟨by rw [a, hp2], by rw [b]; exact hf.2.1, by rw [c]; exact hf.2.2⟩
    · rename_i s2 e0 heq
      rw [heq] at hf
      have hp2 : s2.points = s.points := by
        rw [hf.1]
        exact hup
      exact ⟨hp2, hf.2.1, hf.2.2⟩

/-- C9: dumping a snapshot (`json_save_sequence`) and then loading it back
(`json_load_sequence`) over the same state reproduces the identical
waypoint list on every channel, the same interpolation mode, and the same
frequency (the loader's abort-on-exception path can only leave channels at
the values they already had). -/
theorem snapshot_round_trip (s : TBState) :
    (json_load_sequence (json_save_sequence s) s).points = s.points ∧
    (json_load_sequence (json_save_sequence s) s).selected_interpolation =
      s.selected_interpolation ∧
    (json_load_sequence (json_save_sequence s) s).output_frequency =
      s.output_frequency := by
  unfold json_load_sequence json_save_sequence
  exact json_load_loop_fields (List.finRange 8) _ _ (fun i _ => rfl)

/-! ### Scheduler end-of-run behaviour (C3, C4) -/

set_option maxRecDepth 100000

/-- The streaming state of a run over a 2-sample cache (1 Hz, waypoints
`(0, 1100)` and `(1, 1900)` on every channel) whose cursor has reached 2 —
the run is complete: both cached steps were transmitted, and
`int(max_time * frequency) + 1 = 2`, so the claim expects the next tick to
perform the idle/stop sequence. -/
def streamStuck : TBState :=
  ⟨.linear, 1, true, true, 2, 1, fun _ => [(0, 1100), (1, 1900)],
   fun _ => ([0, 1], [1100, 1900]), []⟩

/-- C3 (code-bug evidence): from `streamStuck` the idle/stop sequence is
never performed: after any number of ticks the timer is still active, the
transport is still open, nothing further is written (in particular no idle
frame), and the cursor has not moved.  The tick with cursor 2 satisfies the
`com_step <= int(max_time*frequency) + 1` data-branch test, its cache
lookup fails, `serial_send` raises on the short list before the cursor is
incremented, and every later tick repeats the same error, so the
`serial_send_idle` branch can never be reached. -/
theorem run_never_reaches_idle (k : ℕ) :
    (run_ticks true k streamStuck).timerActive = true ∧
    (run_ticks true k streamStuck).serial_status = true ∧
    (run_ticks true k streamStuck).writes = streamStuck.writes ∧
    (run_ticks true k streamStuck).com_step = streamStuck.com_step := by
  have hfix : (send_pwms true streamStuck).1 = streamStuck := by decide
  have h : run_ticks true k streamStuck = streamStuck :=
    Function.iterate_fixed hfix k
  rw [h]
  exact ⟨rfl, rfl, rfl, rfl⟩

theorem get_pwms_loop_complete (s : TBState) (step : ℕ) :
    ∀ (L : List (Fin 8)) (acc : List ℤ),
      (∀ i ∈ L, step < ((s.cached_pwms i).2).length) →
      get_pwms_loop s step L acc =
        acc ++ L.map (fun i => pyInt (((s.cached_pwms i).2).getD step 0)) := by
  intro L
  induction L with
  | nil =>
    intro acc _
    simp [get_pwms_loop]
  | cons j rest ih =>
    intro acc h
    have hj : step < ((s.cached_pwms j).2).length := h j (List.mem_cons_self j rest)
    have hy : ((s.cached_pwms j).2).get? step =
        some (((s.cached_pwms j).2).getD step 0) := by
      rw [List.get?_eq_getElem?, List.getElem?_eq_getElem hj,
        List.getD_eq_getElem?_getD, List.getElem?_eq_getElem hj]
      rfl
    unfold get_pwms_loop
    rw [hy]
    show get_pwms_loop s step rest
        (acc ++ [pyInt (((s.cached_pwms j).2).getD step 0)]) = _
    rw [ih (acc ++ [pyInt (((s.cached_pwms j).2).getD step 0)])
        (fun i hi => h i (List.mem_cons_of_mem j hi))]
    simp

theorem get_pwms_complete (s : TBState) (step N : ℕ)
    (hlen : ∀ i, ((s.cached_pwms i).2).length = N) (hstep : step < N) :
    get_pwms s step =
      (List.finRange 8).map
        (fun i => pyInt (((s.cached_pwms i).2).getD step 0)) ∧
    (get_pwms s step).length = 8 := by
  have h := get_pwms_loop_complete s step (List.finRange 8) []
    (fun i _ => by rw [hlen i]; exact hstep)
  unfold get_pwms
  rw [h]
  constructor
  · simp
  · simp

/-- C4 (amended): on a tick while streaming with the cursor a valid cache
index (cursor < stepCount, the number of cached samples) and within the
tick bound, a complete 8-element PWM vector — channel `i` contributing its
cached sample at the cursor — is framed and transmitted, and afterwards the
cursor is incremented by exactly one.  (At cursor = stepCount the claim
fails: the tick still takes the data branch but the lookup fails and
nothing is sent; and while streaming every channel has a cached curve, so
the claim's neutral-1500 fallback never arises.) -/
theorem tick_transmits_cached_vector (s : TBState) (po : Bool) (N : ℕ)
    (hopen : s.serial_status = true)
    (hlen : ∀ i, ((s.cached_pwms i).2).length = N)
    (hcur : s.com_step < N)
    (hbound : (s.com_step : ℤ) ≤
      pyInt (s.max_time * (s.output_frequency : ℚ)) + 1) :
    send_pwms po s =
      ({s with writes := s.writes ++ [fullFrame (get_pwms s s.com_step)],
               com_step := s.com_step + 1}, none) ∧
    get_pwms s s.com_step =
      (List.finRange 8).map
        (fun i => pyInt (((s.cached_pwms i).2).getD s.com_step 0)) ∧
    (fullFrame (get_pwms s s.com_step)).length = 21 ∧
    decodeLE16s (((fullFrame (get_pwms s s.com_step)).drop 3).take 16) =
      (get_pwms s s.com_step).map (fun v => (clampPWM v).toNat) := by
  obtain ⟨hget, hglen⟩ := get_pwms_complete s s.com_step N hlen hcur
  have hsend := serial_send_ok (get_pwms s s.com_step) s hglen hopen
  have hff := fullFrame_spec (get_pwms s s.com_step) hglen
  refine ⟨?_, hget, hff.1, hff.2.2.1⟩
  unfold send_pwms
  rw [if_pos hbound, hsend]

/-- A streaming state whose cursor equals the cache length 2 (which is also
the tick bound `int(max_time*frequency) + 1`). -/
def tickEdgeState : TBState :=
  ⟨.linear, 1, true, true, 2, 1, fun _ => [(0, 1300), (1, 1700)],
   fun _ => ([0, 1], [1300, 1700]), []⟩

/-- C4 counterexample: with cursor = stepCount = 2 the claim's condition
`cursor ≤ stepCount` holds, yet the tick transmits nothing and leaves the
cursor unchanged. -/
theorem tick_at_step_count_sends_nothing :
    ((tickEdgeState.com_step : ℤ) ≤
      pyInt (tickEdgeState.max_time *
        (tickEdgeState.output_frequency : ℚ)) + 1) ∧
    (send_pwms true tickEdgeState).1.writes = tickEdgeState.writes ∧
    (send_pwms true tickEdgeState).1.com_step = tickEdgeState.com_step := by
  decide

/-- The same streaming state with the cursor at 0. -/
def tickOkState : TBState :=
  ⟨.linear, 1, true, true, 0, 1, fun _ => [(0, 1300), (1, 1700)],
   fun _ => ([0, 1], [1300, 1700]), []⟩

theorem tick_transmits_cached_vector_check :
    (tickOkState.serial_status = true ∧
     (∀ i, ((tickOkState.cached_pwms i).2).length = 2) ∧
     tickOkState.com_step < 2 ∧
     ((tickOkState.com_step : ℤ) ≤
       pyInt (tickOkState.max_time *
         (tickOkState.output_frequency : ℚ)) + 1)) ∧
    (send_pwms true tickOkState =
      ({tickOkState with
         writes := tickOkState.writes ++
           [fullFrame (get_pwms tickOkState tickOkState.com_step)],
         com_step := tickOkState.com_step + 1}, none) ∧
     get_pwms tickOkState tickOkState.com_step =
       (List.finRange 8).map (fun i =>
         pyInt (((tickOkState.cached_pwms i).2).getD
           tickOkState.com_step 0)) ∧
     (fullFrame (get_pwms tickOkState tickOkState.com_step)).length = 21 ∧
     decodeLE16s (((fullFrame
         (get_pwms tickOkState tickOkState.com_step)).drop 3).take 16) =
       (get_pwms tickOkState tickOkState.com_step).map
         (fun v => (clampPWM v).toNat)) :=
  ⟨⟨rfl, fun _ => rfl, by decide, by decide⟩,
   tick_transmits_cached_vector tickOkState true 2 rfl (fun _ => rfl)
     (by decide) (by decide)⟩

/-! ### Frequency change mid-stream (C10) -/

theorem serial_send_timer (pwm : List ℤ) (s : TBState) :
    ((serial_send pwm s).1).timerActive = s.timerActive := by
  unfold serial_send
  split
  · rfl
  · split
    · rfl
    · rfl

theorem serial_send_idle_timer_off (po : Bool) (s : TBState)
    (hopen : s.serial_status = true) :
    ((serial_send_idle po s).1).timerActive = false := by
  unfold serial_send_idle
  rw [if_pos hopen, serial_send_ok (List.replicate 8 1500)
    {s with timerActive := false} (by simp) hopen]

/-- C10 (amended): the tick handler's end-of-run test recomputes its bound
`int(max_time * output_frequency) + 1` from the current frequency on every
tick, while `change_frequency` leaves the cached sample arrays (and the
cursor and `max_time`) untouched; consequently after a mid-stream frequency
change the idle branch fires exactly according to the new frequency's
bound, and — provided the waveform lasts at least one second
(`max_time ≥ 1`) — raising the frequency makes that bound exceed the
length of the cached arrays.  (For shorter waveforms the bound need not
grow: see the counterexample with a 0.1 s waveform raised from 1 Hz to
5 Hz, where both the bound and the cache length are 1.) -/
theorem tick_bound_tracks_current_frequency (s : TBState) (fNew : ℕ)
    (htimer : s.timerActive = true) (hopen : s.serial_status = true)
    (hmt : 1 ≤ s.max_time) (hf : s.output_frequency < fNew)
    (hN : ∀ i, ((s.cached_pwms i).2).length =
      (pyInt (s.max_time * (s.output_frequency : ℚ)) + 1).toNat) :
    (change_frequency fNew s).cached_pwms = s.cached_pwms ∧
    (change_frequency fNew s).max_time = s.max_time ∧
    (change_frequency fNew s).com_step = s.com_step ∧
    (∀ po, (((send_pwms po (change_frequency fNew s)).1).timerActive = false ↔
      pyInt (s.max_time * (fNew : ℚ)) + 1 < (s.com_step : ℤ))) ∧
    (∀ i, (((s.cached_pwms i).2).length : ℤ) <
      pyInt (s.max_time * (fNew : ℚ)) + 1) := by
  have hm0 : (0 : ℚ) ≤ s.max_time := le_trans zero_le_one hmt
  have hpos1 : (0 : ℚ) ≤ s.max_time * (s.output_frequency : ℚ) :=
    mul_nonneg hm0 (by positivity)
  have hpos2 : (0 : ℚ) ≤ s.max_time * (fNew : ℚ) := mul_nonneg hm0 (by positivity)
  have e1 : pyInt (s.max_time * (s.output_frequency : ℚ)) =
      ⌊s.max_time * (s.output_frequency : ℚ)⌋ := by
    rw [pyInt, if_pos hpos1]
  have e2 : pyInt (s.max_time * (fNew : ℚ)) = ⌊s.max_time * (fNew : ℚ)⌋ := by
    rw [pyInt, if_pos hpos2]
  refine ⟨rfl, rfl, rfl, ?_, ?_⟩
  · intro po
    unfold send_pwms
    by_cases hc : ((change_frequency fNew s).com_step : ℤ) ≤
        pyInt ((change_frequency fNew s).max_time *
          ((change_frequency fNew s).output_frequency : ℚ)) + 1
    · rw [if_pos hc]
      rcases hs : serial_send
          (get_pwms (change_frequency fNew s)
            (change_frequency fNew s).com_step)
          (change_frequency fNew s) with ⟨s1, e⟩
      have ht := serial_send_timer
        (get_pwms (change_frequency fNew s) (change_frequency fNew s).com_step)
        (change_frequency fNew s)
      rw [hs] at ht
      have ht' : s1.timerActive = s.timerActive := ht
      have hnot : ¬(pyInt (s.max_time * (fNew : ℚ)) + 1 < (s.com_step : ℤ)) :=
        not_lt.mpr hc
      cases e with
      | none =>
        show s1.timerActive = false ↔ _
        rw [ht', htimer]
        exact iff_of_false (by simp) hnot
      | some e0 =>
        show s1.timerActive = false ↔ _
        rw [ht', htimer]
        exact iff_of_false (by simp) hnot
    · rw [if_neg hc]
      have hidle := serial_send_idle_timer_off po (change_frequency fNew s) hopen
      rw [hidle]
      exact iff_of_true rfl (not_le.mp hc)
  · intro i
    rw [hN i]
    have hc1 : ⌊s.max_time * (s.output_frequency : ℚ)⌋ + 1 ≤
        ⌊s.max_time * (fNew : ℚ)⌋ := by
      apply Int.le_floor.mpr
      have hfl : (⌊s.max_time * (s.output_frequency : ℚ)⌋ : ℚ) ≤
          s.max_time * (s.output_frequency : ℚ) := Int.floor_le _
      have hf1 : (s.output_frequency : ℚ) + 1 ≤ (fNew : ℚ) := by
        exact_mod_cast hf
      have hstep : s.max_time * (s.output_frequency : ℚ) + 1 ≤
          s.max_time * (fNew : ℚ) := by
        calc s.max_time * (s.output_frequency : ℚ) + 1 ≤
            s.max_time * (s.output_frequency : ℚ) + s.max_time := by linarith
          _ = s.max_time * ((s.output_frequency : ℚ) + 1) := by ring
          _ ≤ s.max_time * (fNew : ℚ) := by
            exact mul_le_mul_of_nonneg_left hf1 hm0
      push_cast
      linarith
    have hnn : 0 ≤ pyInt (s.max_time * (s.output_frequency : ℚ)) + 1 := by
      rw [e1]
      have := Int.floor_nonneg.mpr hpos1
      omega
    rw [Int.toNat_of_nonneg hnn, e1, e2]
    omega

/-- A streaming state over a 0.1-second waveform cached at 1 Hz: the cache
holds `int(0.1 * 1) + 1 = 1` sample per channel. -/
def shortWaveState : TBState :=
  ⟨.linear, 1, true, true, 0, 1/10, fun _ => [(0, 1300), (1/10, 1700)],
   fun _ => ([0], [1300]), []⟩

/-- C10 counterexample: raising the frequency mid-stream does not always
make the cursor bound exceed the cached array length.  On `shortWaveState`
(0.1 s waveform, cache length `int(0.1 * 1) + 1 = 1`), raising the
frequency from 1 Hz to 5 Hz keeps the caches untouched but gives the new
bound `int(0.1 * 5) + 1 = 1`, equal to — not exceeding — the cache
length. -/
theorem tick_bound_raise_no_overrun :
    shortWaveState.output_frequency < 5 ∧
    (∀ i, ((shortWaveState.cached_pwms i).2).length =
      (pyInt (shortWaveState.max_time *
        (shortWaveState.output_frequency : ℚ)) + 1).toNat) ∧
    (change_frequency 5 shortWaveState).cached_pwms =
      shortWaveState.cached_pwms ∧
    ¬((((shortWaveState.cached_pwms 0).2).length : ℤ) <
      pyInt (shortWaveState.max_time * ((5 : ℕ) : ℚ)) + 1) := by
  decide

/-- A streaming state at 1 Hz with the matching 2-sample caches. -/
def freqState : TBState :=
  ⟨.linear, 1, true, true, 0, 1, fun _ => [(0, 1300), (1, 1700)],
   fun _ => ([0, 1], [1300, 1700]), []⟩

theorem tick_bound_tracks_current_frequency_check :
    (freqState.timerActive = true ∧ freqState.serial_status = true ∧
     (1 : ℚ) ≤ freqState.max_time ∧ freqState.output_frequency < 2 ∧
     (∀ i, ((freqState.cached_pwms i).2).length =
       (pyInt (freqState.max_time *
         (freqState.output_frequency : ℚ)) + 1).toNat)) ∧
    ((change_frequency 2 freqState).cached_pwms = freqState.cached_pwms ∧
     (change_frequency 2 freqState).max_time = freqState.max_time ∧
     (change_frequency 2 freqState).com_step = freqState.com_step ∧
     (∀ po, (((send_pwms po (change_frequency 2 freqState)).1).timerActive =
        false ↔
       pyInt (freqState.max_time * (2 : ℕ)) + 1 <
         (freqState.com_step : ℤ))) ∧
     (∀ i, (((freqState.cached_pwms i).2).length : ℤ) <
       pyInt (freqState.max_time * (2 : ℕ)) + 1)) :=
  ⟨⟨rfl, rfl, by decide, by decide, by decide⟩,
   tick_bound_tracks_current_frequency freqState 2 rfl rfl (by decide)
     (by decide) (by decide)⟩

end TestBench
